import Mathlib

/-!
# gRPC transport adapter of the `add` service

A shallow embedding of `internal/app/add/transports/grpc/grpc.go` and
`internal/app/add/endpoints/responses.go`.

* Go values passed as `interface{}` are the inductive `Value`.
* A Go function that may panic returns an `Outcome`.
* A Go `error` is `Option GoError` (`none` is `nil`); a non-nil error is described by
  what the methods called in this layer return.
* `int64` fields are `Int`: this layer only copies them, it does no arithmetic.
-/

namespace GokitAdd

/-! ## Library types: gRPC codes and statuses -/

/-- The type `codes.Code` of google.golang.org/grpc (a `uint32`; only compared here). -/
abbrev Code := Nat

namespace codes

def OK : Code := 0
def Unknown : Code := 2
def Internal : Code := 13
def Unauthenticated : Code := 16

end codes

/-- The method `String` of `codes.Code` in the gRPC library: the name of the code. -/
def codeString (c : Code) : String :=
  match c with
  | 0 => "OK"
  | 1 => "Canceled"
  | 2 => "Unknown"
  | 3 => "InvalidArgument"
  | 4 => "DeadlineExceeded"
  | 5 => "NotFound"
  | 6 => "AlreadyExists"
  | 7 => "PermissionDenied"
  | 8 => "ResourceExhausted"
  | 9 => "FailedPrecondition"
  | 10 => "Aborted"
  | 11 => "OutOfRange"
  | 12 => "Unimplemented"
  | 13 => "Internal"
  | 14 => "Unavailable"
  | 15 => "DataLoss"
  | 16 => "Unauthenticated"
  | n => "Code(" ++ toString n ++ ")"

/-- A gRPC `status.Status`: a code and a message. -/
structure Status where
  code : Code
  message : String
  deriving DecidableEq, Repr

/-- The method `(*Status).Code`; a nil status reads as `OK`. -/
def Status.Code : Option Status → Code
  | none => codes.OK
  | some s => s.code

/-- The method `(*Status).Message`; a nil status has the empty message. -/
def Status.Message : Option Status → String
  | none => ""
  | some s => s.message

/-- A non-nil Go `error` value, as this layer observes it: `text` is what `Error()`
returns; `grpcStatus` is `some st` when the dynamic type has a `GRPCStatus()` method,
which then returns `st`, and `none` when it has no such method. -/
structure GoError where
  text : String
  grpcStatus : Option Status
  deriving DecidableEq, Repr

/-! ## The error values of the repository -/

/-- Modelled from the spec: the interface type `errors.Error` of `internal/pkg/errors`,
which is not among the source files. Section 3 describes an error value with a message
of its own, a cause chain that can be tested for a sentinel, and (section 4.4, item 1)
possibly an explicit transport status. A value of the interface is described by what its
methods return: `base` holds `Error()` and `GRPCStatus()`, `msg` is the message of this
layer of the chain, and `wrap` carries the wrapped cause. -/
inductive Error where
  | leaf (base : GoError) (msg : String)
  | wrap (base : GoError) (msg : String) (err : Error)
  deriving DecidableEq, Repr

/-- An `errors.Error` seen as a plain Go `error` (the interface embeds `error`). -/
def Error.base : Error → GoError
  | .leaf b _ => b
  | .wrap b _ _ => b

/-- The message of the outermost layer of the chain. -/
def Error.Msg : Error → String
  | .leaf _ m => m
  | .wrap _ m _ => m

/-- The wrapped cause, `nil` at the end of the chain. -/
def Error.Err : Error → Option Error
  | .leaf _ _ => none
  | .wrap _ _ c => some c

set_option linter.dupNamespace false in
/-- The method `Error()` of an `errors.Error`. -/
def Error.Error (e : Error) : String := e.base.text

namespace errors

/-- The chain walk of `Contains`: some layer of `e` has the message `s`. -/
def containsMsg (s : String) : Error → Bool
  | .leaf _ m => m == s
  | .wrap _ m c => m == s || containsMsg s c

/-- Modelled from the spec: `errors.Contains` of `internal/pkg/errors`, which is not
among the source files. Section 3 calls it cause-chain containment testing ("is this
error, or something it wraps, a specific sentinel?") and section 9 says the source
decides it by string matching: a layer is the sentinel when its message is the
sentinel's message. Two nil errors contain each other; a nil and a non-nil one do not. -/
def Contains : Option Error → Option GoError → Bool
  | none, e2 => e2.isNone
  | some _, none => false
  | some e1, some e2 => containsMsg e2.text e1

/-- Modelled from the spec: `errors.Cast` of `internal/pkg/errors`, which is not among
the source files. It turns the Go `error` of a domain response into the `errors.Error`
the translator consumes. The spec fixes the two ends: a nil error stays nil
(section 8, `Translate(nil) == Success`, also end to end) and a non-nil error stays an
error (section 7, errors are never swallowed). What the conversion does to a non-nil
error is not described, so it is the parameter `conv`. -/
def Cast (conv : GoError → Error) : Option GoError → Option Error
  | none => none
  | some e => some (conv e)

end errors

namespace kitjwt

/-- The sentinel `ErrTokenContextMissing` of go-kit's `auth/jwt`, an `errors.New` value. -/
def ErrTokenContextMissing : GoError :=
  { text := "token up for parsing was not passed through the context", grpcStatus := none }

end kitjwt

namespace status

/-- The library function `status.Error(c, msg)`: an error representing `c` and `msg`;
for `c = OK` it returns nil. The text is the library's rendering of a status error. -/
def Error (c : Code) (msg : String) : Option GoError :=
  if c = codes.OK then none
  else some { text := "rpc error: code = " ++ codeString c ++ " desc = " ++ msg,
              grpcStatus := some { code := c, message := msg } }

/-- The library function `status.FromError(err)`: for nil, a nil status and `true`; for
an error with a `GRPCStatus()` method, that status and `true`; for any other error a
status with code `Unknown` and the error's text, and `false`. -/
def FromError : Option GoError → Option Status × Bool
  | none => (none, true)
  | some e =>
    match e.grpcStatus with
    | some st => (some st, true)
    | none => (some { code := codes.Unknown, message := e.text }, false)

end status

/-! ## grpc.go: the error translator -/

/-- The function `grpcEncodeError` of grpc.go. -/
def grpcEncodeError (err : Option Error) : Option GoError :=
  match err with
  | none => none
  | some e =>
    let (st, ok) := status.FromError (some e.base)
    if ok then
      status.Error (Status.Code st) (Status.Message st)
    else if errors.Contains (some e) (some kitjwt.ErrTokenContextMissing) then
      status.Error codes.Unauthenticated e.Error
    else
      status.Error codes.Internal "internal server error"

/-! ## Requests, responses and dynamic values -/

namespace pb

/-- Modelled from the spec: the wire message `pb.SumRequest`, declared outside the source
files; section 6 gives `Sum(a:int64, b:int64)`, and grpc.go reads the fields `A`, `B`. -/
structure SumRequest where
  A : Int
  B : Int
  deriving DecidableEq, Repr

/-- Modelled from the spec: the wire message `pb.SumResponse`, declared outside the source
files; section 6 gives the reply `(res:int64)`, and grpc.go sets the field `Res`. -/
structure SumResponse where
  Res : Int
  deriving DecidableEq, Repr

/-- Modelled from the spec: the wire message `pb.ConcatRequest`, declared outside the
source files; section 6 gives `Concat(a:string, b:string)`. -/
structure ConcatRequest where
  A : String
  B : String
  deriving DecidableEq, Repr

/-- Modelled from the spec: the wire message `pb.ConcatResponse`, declared outside the
source files; section 6 gives the reply `(res:string)`. -/
structure ConcatResponse where
  Res : String
  deriving DecidableEq, Repr

end pb

namespace endpoints

/-- Modelled from the spec: the domain request `endpoints.SumRequest`, declared outside
the source files; section 3 gives `SumRequest{A int64, B int64}`. -/
structure SumRequest where
  A : Int
  B : Int
  deriving DecidableEq, Repr

/-- Modelled from the spec: the domain request `endpoints.ConcatRequest`, declared outside
the source files; section 3 gives `ConcatRequest{A string, B string}`. -/
structure ConcatRequest where
  A : String
  B : String
  deriving DecidableEq, Repr

/-- The domain response `endpoints.SumResponse` of responses.go. -/
structure SumResponse where
  Res : Int
  Err : Option GoError
  deriving DecidableEq, Repr

/-- The domain response `endpoints.ConcatResponse` of responses.go. -/
structure ConcatResponse where
  Res : String
  Err : Option GoError
  deriving DecidableEq, Repr

end endpoints

/-- A Go value passed as `interface{}`: its dynamic type and content. A pointer to a wire
message is an `Option`, `none` being the nil pointer; `nil` is the nil interface and
`other` stands for a value of any other dynamic type. -/
inductive Value where
  | nil
  | pbSumRequest (p : Option pb.SumRequest)
  | pbSumResponse (p : Option pb.SumResponse)
  | pbConcatRequest (p : Option pb.ConcatRequest)
  | pbConcatResponse (p : Option pb.ConcatResponse)
  | sumRequest (r : endpoints.SumRequest)
  | sumResponse (r : endpoints.SumResponse)
  | concatRequest (r : endpoints.ConcatRequest)
  | concatResponse (r : endpoints.ConcatResponse)
  | other (typeName : String)
  deriving DecidableEq, Repr

/-- The two ways a function of grpc.go can panic. -/
inductive Panic where
  | typeAssertion
  | nilDereference
  deriving DecidableEq, Repr

/-- The result of running a Go function: it returns a value or it panics. -/
inductive Outcome (α : Type) where
  | ret (a : α)
  | panic (p : Panic)
  deriving DecidableEq, Repr

/-- The shape of go-kit's decode and encode functions and of an endpoint, the context
left out: from a value to a value and an error. -/
abbrev Codec := Value → Outcome (Value × Option GoError)

/-! ## grpc.go: server-side conversions -/

/-- The function `decodeGRPCSumRequest` of grpc.go. -/
def decodeGRPCSumRequest (grpcReq : Value) : Outcome (Value × Option GoError) :=
  match grpcReq with
  | .pbSumRequest (some req) => .ret (.sumRequest { A := req.A, B := req.B }, none)
  | .pbSumRequest none => .panic .nilDereference
  | _ => .panic .typeAssertion

/-- The function `encodeGRPCSumResponse` of grpc.go. -/
def encodeGRPCSumResponse (conv : GoError → Error) (grpcReply : Value) :
    Outcome (Value × Option GoError) :=
  match grpcReply with
  | .sumResponse reply =>
    .ret (.pbSumResponse (some { Res := reply.Res }), grpcEncodeError (errors.Cast conv reply.Err))
  | _ => .panic .typeAssertion

/-- The function `decodeGRPCConcatRequest` of grpc.go. -/
def decodeGRPCConcatRequest (grpcReq : Value) : Outcome (Value × Option GoError) :=
  match grpcReq with
  | .pbConcatRequest (some req) => .ret (.concatRequest { A := req.A, B := req.B }, none)
  | .pbConcatRequest none => .panic .nilDereference
  | _ => .panic .typeAssertion

/-- The function `encodeGRPCConcatResponse` of grpc.go. -/
def encodeGRPCConcatResponse (conv : GoError → Error) (grpcReply : Value) :
    Outcome (Value × Option GoError) :=
  match grpcReply with
  | .concatResponse reply =>
    .ret (.pbConcatResponse (some { Res := reply.Res }), grpcEncodeError (errors.Cast conv reply.Err))
  | _ => .panic .typeAssertion

/-! ## grpc.go: client-side conversions -/

/-- The function `encodeGRPCSumRequest` of grpc.go. -/
def encodeGRPCSumRequest (request : Value) : Outcome (Value × Option GoError) :=
  match request with
  | .sumRequest req => .ret (.pbSumRequest (some { A := req.A, B := req.B }), none)
  | _ => .panic .typeAssertion

/-- The function `decodeGRPCSumResponse` of grpc.go. -/
def decodeGRPCSumResponse (grpcReply : Value) : Outcome (Value × Option GoError) :=
  match grpcReply with
  | .pbSumResponse (some reply) => .ret (.sumResponse { Res := reply.Res, Err := none }, none)
  | .pbSumResponse none => .panic .nilDereference
  | _ => .panic .typeAssertion

/-- The function `encodeGRPCConcatRequest` of grpc.go. -/
def encodeGRPCConcatRequest (request : Value) : Outcome (Value × Option GoError) :=
  match request with
  | .concatRequest req => .ret (.pbConcatRequest (some { A := req.A, B := req.B }), none)
  | _ => .panic .typeAssertion

/-- The function `decodeGRPCConcatResponse` of grpc.go. -/
def decodeGRPCConcatResponse (grpcReply : Value) : Outcome (Value × Option GoError) :=
  match grpcReply with
  | .pbConcatResponse (some reply) =>
    .ret (.concatResponse { Res := reply.Res, Err := none }, none)
  | .pbConcatResponse none => .panic .nilDereference
  | _ => .panic .typeAssertion

/-! ## grpc.go: the server -/

/-- The method `ServeGRPC` of go-kit's `grpctransport.Server` built by `NewServer(e, dec,
enc)`, as section 4.2 of the spec lists its steps: decode, call the endpoint, encode; the
first non-nil error ends the call with a nil reply and that error. Context, metadata and
the error logger are left out. -/
def ServeGRPC (e dec enc : Codec) (req : Value) : Outcome (Value × Option GoError) :=
  match dec req with
  | .panic p => .panic p
  | .ret (_, some err) => .ret (.nil, some err)
  | .ret (request, none) =>
    match e request with
    | .panic p => .panic p
    | .ret (_, some err) => .ret (.nil, some err)
    | .ret (response, none) =>
      match enc response with
      | .panic p => .panic p
      | .ret (_, some err) => .ret (.nil, some err)
      | .ret (grpcResp, none) => .ret (grpcResp, none)

/-- The struct `grpcServer` of grpc.go: one handler per operation, each handler being
its `ServeGRPC` method. -/
structure grpcServer where
  sum : Codec
  concat : Codec

/-- Modelled from the spec: the struct `endpoints.Endpoints`, declared outside the source
files; section 4.1 has exactly one endpoint per domain operation, and grpc.go names the
fields `SumEndpoint` and `ConcatEndpoint`. -/
structure endpoints.Endpoints where
  SumEndpoint : Codec
  ConcatEndpoint : Codec

/-- The method `(*grpcServer).Sum` of grpc.go. -/
def grpcServer.Sum (conv : GoError → Error) (s : grpcServer) (req : Option pb.SumRequest) :
    Outcome (Option pb.SumResponse × Option GoError) :=
  match s.sum (.pbSumRequest req) with
  | .panic p => .panic p
  | .ret (_, some err) => .ret (none, grpcEncodeError (errors.Cast conv (some err)))
  | .ret (rp, none) =>
    match rp with
    | .pbSumResponse rep => .ret (rep, none)
    | _ => .panic .typeAssertion

/-- The method `(*grpcServer).Concat` of grpc.go. -/
def grpcServer.Concat (conv : GoError → Error) (s : grpcServer)
    (req : Option pb.ConcatRequest) : Outcome (Option pb.ConcatResponse × Option GoError) :=
  match s.concat (.pbConcatRequest req) with
  | .panic p => .panic p
  | .ret (_, some err) => .ret (none, grpcEncodeError (errors.Cast conv (some err)))
  | .ret (rp, none) =>
    match rp with
    | .pbConcatResponse rep => .ret (rep, none)
    | _ => .panic .typeAssertion

/-- The function `MakeGRPCServer` of grpc.go, tracing and logging options left out. -/
def MakeGRPCServer (conv : GoError → Error) (eps : endpoints.Endpoints) : grpcServer :=
  { sum := ServeGRPC eps.SumEndpoint decodeGRPCSumRequest (encodeGRPCSumResponse conv)
    concat := ServeGRPC eps.ConcatEndpoint decodeGRPCConcatRequest
      (encodeGRPCConcatResponse conv) }

/-! ## responses.go: the response envelope -/

/-- Modelled from the spec: the struct `responses.DataRes`, declared outside the source
files; section 3 gives the envelope `{APIVersion: string, Data: DomainResponse}`. -/
structure responses.DataRes where
  APIVersion : String
  Data : Value
  deriving DecidableEq, Repr

namespace endpoints

/-- The method `SumResponse.StatusCode` of responses.go; `http.StatusOK` is 200. -/
def SumResponse.StatusCode (_r : SumResponse) : Int := 200

/-- The method `SumResponse.Headers` of responses.go: an empty `http.Header`. -/
def SumResponse.Headers (_r : SumResponse) : List (String × List String) := []

/-- The method `SumResponse.Response` of responses.go; the constant `service.Version`,
declared outside the source files, is the parameter `Version`. -/
def SumResponse.Response (Version : String) (r : SumResponse) : responses.DataRes :=
  { APIVersion := Version, Data := .sumResponse r }

/-- The method `ConcatResponse.StatusCode` of responses.go; `http.StatusOK` is 200. -/
def ConcatResponse.StatusCode (_r : ConcatResponse) : Int := 200

/-- The method `ConcatResponse.Headers` of responses.go: an empty `http.Header`. -/
def ConcatResponse.Headers (_r : ConcatResponse) : List (String × List String) := []

/-- The method `ConcatResponse.Response` of responses.go; the constant `service.Version`,
declared outside the source files, is the parameter `Version`. -/
def ConcatResponse.Response (Version : String) (r : ConcatResponse) : responses.DataRes :=
  { APIVersion := Version, Data := .concatResponse r }

end endpoints

/-! ## Sample conversions and values

Two ways `errors.Cast` can treat a non-nil error, used to instantiate `conv`. -/

/-- A conversion that keeps what the error answers to `Error()` and `GRPCStatus()` and
adds no cause. -/
def convKeep (g : GoError) : Error := .leaf g g.text

/-- A conversion into a fresh error made of the text of `g` only: the result has no
`GRPCStatus()` method and no cause. -/
def convRewrap (g : GoError) : Error := .leaf { text := g.text, grpcStatus := none } g.text

/-! ## Basic facts about the translator -/

theorem status_Error_ne_none (c : Code) (m : String) (hc : c ≠ codes.OK) :
    status.Error c m =
      some { text := "rpc error: code = " ++ codeString c ++ " desc = " ++ m,
             grpcStatus := some { code := c, message := m } } := by
  simp [status.Error, hc]

theorem status_FromError_Error (c : Code) (m : String) (hc : c ≠ codes.OK) :
    status.FromError (status.Error c m) = (some { code := c, message := m }, true) := by
  simp [status.Error, hc, status.FromError]

theorem grpcEncodeError_with_status (e : Error) (st : Status)
    (h : e.base.grpcStatus = some st) :
    grpcEncodeError (some e) = status.Error st.code st.message := by
  simp [grpcEncodeError, status.FromError, h, Status.Code, Status.Message]

theorem grpcEncodeError_without_status (e : Error) (h : e.base.grpcStatus = none) :
    grpcEncodeError (some e) =
      if errors.Contains (some e) (some kitjwt.ErrTokenContextMissing) then
        status.Error codes.Unauthenticated e.Error
      else status.Error codes.Internal "internal server error" := by
  simp [grpcEncodeError, status.FromError, h]

theorem FromError_false_iff (g : GoError) :
    (status.FromError (some g)).2 = false ↔ g.grpcStatus = none := by
  cases h : g.grpcStatus <;> simp [status.FromError, h]

theorem FromError_eq_true (g : GoError) (st : Option Status)
    (h : status.FromError (some g) = (st, true)) : g.grpcStatus = st := by
  cases hg : g.grpcStatus <;> simp [status.FromError, hg] at h
  exact h

/-! ## The error translator -/

/-- C1: a non-nil error for which `status.FromError` reports `false` and whose cause
chain does not contain `kitjwt.ErrTokenContextMissing` is translated to the status error
with code `Internal` and the message "internal server error"; two such errors get the
same result, whatever their own messages are. -/
theorem grpcEncodeError_catch_all (e e' : Error)
    (hs : (status.FromError (some e.base)).2 = false)
    (hc : errors.Contains (some e) (some kitjwt.ErrTokenContextMissing) = false)
    (hs' : (status.FromError (some e'.base)).2 = false)
    (hc' : errors.Contains (some e') (some kitjwt.ErrTokenContextMissing) = false) :
    grpcEncodeError (some e) = status.Error codes.Internal "internal server error"
    ∧ status.FromError (grpcEncodeError (some e))
        = (some { code := codes.Internal, message := "internal server error" }, true)
    ∧ grpcEncodeError (some e) = grpcEncodeError (some e') := by
  have h1 : grpcEncodeError (some e) = status.Error codes.Internal "internal server error" := by
    rw [grpcEncodeError_without_status e ((FromError_false_iff _).1 hs), hc]; simp
  have h2 : grpcEncodeError (some e') = status.Error codes.Internal "internal server error" := by
    rw [grpcEncodeError_without_status e' ((FromError_false_iff _).1 hs'), hc']; simp
  refine ⟨h1, ?_, by rw [h1, h2]⟩
  rw [h1]
  exact status_FromError_Error _ _ (by decide)

theorem grpcEncodeError_catch_all_witness :
    grpcEncodeError (some (Error.leaf { text := "dial tcp 10.0.0.7:5432", grpcStatus := none }
        "dial tcp 10.0.0.7:5432"))
      = status.Error codes.Internal "internal server error"
    ∧ grpcEncodeError (some (Error.leaf { text := "dial tcp 10.0.0.7:5432", grpcStatus := none }
        "dial tcp 10.0.0.7:5432"))
      = grpcEncodeError (some (Error.wrap { text := "sum : overflow", grpcStatus := none } "sum"
          (Error.leaf { text := "overflow", grpcStatus := none } "overflow"))) :=
  have h := grpcEncodeError_catch_all
    (Error.leaf { text := "dial tcp 10.0.0.7:5432", grpcStatus := none } "dial tcp 10.0.0.7:5432")
    (Error.wrap { text := "sum : overflow", grpcStatus := none } "sum"
      (Error.leaf { text := "overflow", grpcStatus := none } "overflow"))
    (by decide) (by decide) (by decide) (by decide)
  ⟨h.1, h.2.2⟩

/-- C2, as stated, fails: an error whose chain contains the sentinel but which carries an
explicit status keeps that status instead of becoming `Unauthenticated`. -/
theorem grpcEncodeError_sentinel_with_status_counterexample :
    errors.Contains
        (some (Error.leaf { text := "quota", grpcStatus := some { code := 8, message := "quota" } }
          "token up for parsing was not passed through the context"))
        (some kitjwt.ErrTokenContextMissing) = true
    ∧ status.FromError (grpcEncodeError
        (some (Error.leaf { text := "quota", grpcStatus := some { code := 8, message := "quota" } }
          "token up for parsing was not passed through the context")))
      = (some { code := 8, message := "quota" }, true)
    ∧ grpcEncodeError
        (some (Error.leaf { text := "quota", grpcStatus := some { code := 8, message := "quota" } }
          "token up for parsing was not passed through the context"))
      ≠ status.Error codes.Unauthenticated "quota" := by
  decide

/-- C2, amended: an error for which `status.FromError` reports `false` and whose cause
chain contains `kitjwt.ErrTokenContextMissing` is translated to the status error with
code `Unauthenticated` and the message `e.Error()`. -/
theorem grpcEncodeError_sentinel (e : Error)
    (hs : (status.FromError (some e.base)).2 = false)
    (hc : errors.Contains (some e) (some kitjwt.ErrTokenContextMissing) = true) :
    grpcEncodeError (some e) = status.Error codes.Unauthenticated e.Error
    ∧ status.FromError (grpcEncodeError (some e))
        = (some { code := codes.Unauthenticated, message := e.Error }, true) := by
  have h1 : grpcEncodeError (some e) = status.Error codes.Unauthenticated e.Error := by
    rw [grpcEncodeError_without_status e ((FromError_false_iff _).1 hs), hc]; simp
  refine ⟨h1, ?_⟩
  rw [h1]
  exact status_FromError_Error _ _ (by decide)

theorem grpcEncodeError_sentinel_witness :
    status.FromError (grpcEncodeError (some (Error.wrap
        { text := "sum : token up for parsing was not passed through the context",
          grpcStatus := none } "sum"
        (Error.leaf kitjwt.ErrTokenContextMissing kitjwt.ErrTokenContextMissing.text))))
      = (some { code := codes.Unauthenticated,
                message := "sum : token up for parsing was not passed through the context" },
         true) :=
  (grpcEncodeError_sentinel (Error.wrap
      { text := "sum : token up for parsing was not passed through the context",
        grpcStatus := none } "sum"
      (Error.leaf kitjwt.ErrTokenContextMissing kitjwt.ErrTokenContextMissing.text))
    (by decide) (by decide)).2

/-- C3, as stated, fails at the code `OK`: an error carrying the explicit status
(OK, "done") is translated to nil, not to a status error with that code and message. -/
theorem grpcEncodeError_status_OK_counterexample :
    status.FromError (some (Error.leaf
        { text := "done", grpcStatus := some { code := codes.OK, message := "done" } } "done").base)
      = (some { code := codes.OK, message := "done" }, true)
    ∧ grpcEncodeError (some (Error.leaf
        { text := "done", grpcStatus := some { code := codes.OK, message := "done" } } "done"))
      = none := by
  decide

/-- C3, amended: an error carrying an explicit status with a code `c` other than `OK` and
message `m` is translated to the status error with exactly code `c` and message `m`;
nothing is assumed about its cause chain, so the rule comes before the sentinel check. -/
theorem grpcEncodeError_preserves_status (e : Error) (c : Code) (m : String)
    (hs : status.FromError (some e.base) = (some { code := c, message := m }, true))
    (hc : c ≠ codes.OK) :
    grpcEncodeError (some e) = status.Error c m
    ∧ status.FromError (grpcEncodeError (some e)) = (some { code := c, message := m }, true) := by
  have h1 : grpcEncodeError (some e) = status.Error c m :=
    grpcEncodeError_with_status e { code := c, message := m } (FromError_eq_true _ _ hs)
  exact ⟨h1, by rw [h1]; exact status_FromError_Error c m hc⟩

theorem grpcEncodeError_preserves_status_witness :
    errors.Contains
        (some (Error.wrap { text := "lookup", grpcStatus := some { code := 5, message := "no row" } }
          "lookup" (Error.leaf kitjwt.ErrTokenContextMissing kitjwt.ErrTokenContextMissing.text)))
        (some kitjwt.ErrTokenContextMissing) = true
    ∧ status.FromError (grpcEncodeError
        (some (Error.wrap { text := "lookup", grpcStatus := some { code := 5, message := "no row" } }
          "lookup" (Error.leaf kitjwt.ErrTokenContextMissing kitjwt.ErrTokenContextMissing.text))))
      = (some { code := 5, message := "no row" }, true) :=
  ⟨by decide,
   (grpcEncodeError_preserves_status
      (Error.wrap { text := "lookup", grpcStatus := some { code := 5, message := "no row" } }
        "lookup" (Error.leaf kitjwt.ErrTokenContextMissing kitjwt.ErrTokenContextMissing.text))
      5 "no row" (by decide) (by decide)).2⟩

/-- C4: `grpcEncodeError(nil)` is nil, and both response encoders, given a domain response
with a nil `Err`, return a nil error and a wire response with the same `Res`. -/
theorem grpcEncodeError_nil (conv : GoError → Error) (n : Int) (t : String) :
    grpcEncodeError none = none
    ∧ encodeGRPCSumResponse conv (.sumResponse { Res := n, Err := none })
        = .ret (.pbSumResponse (some { Res := n }), none)
    ∧ encodeGRPCConcatResponse conv (.concatResponse { Res := t, Err := none })
        = .ret (.pbConcatResponse (some { Res := t }), none) :=
  ⟨rfl, rfl, rfl⟩

/-! ## Request and response conversions -/

/-- C5: encoding a domain request and decoding the wire message gives back the request,
with a nil error at both steps; decoding a wire request and encoding the result gives a
wire message with the same `A` and `B`; for Sum over all integers and for Concat over all
strings. -/
theorem request_round_trip (a b : Int) (u v : String) (x : pb.SumRequest)
    (y : pb.ConcatRequest) :
    (encodeGRPCSumRequest (.sumRequest { A := a, B := b })
        = .ret (.pbSumRequest (some { A := a, B := b }), none)
      ∧ decodeGRPCSumRequest (.pbSumRequest (some { A := a, B := b }))
        = .ret (.sumRequest { A := a, B := b }, none))
    ∧ (decodeGRPCSumRequest (.pbSumRequest (some x))
        = .ret (.sumRequest { A := x.A, B := x.B }, none)
      ∧ encodeGRPCSumRequest (.sumRequest { A := x.A, B := x.B })
        = .ret (.pbSumRequest (some x), none))
    ∧ (encodeGRPCConcatRequest (.concatRequest { A := u, B := v })
        = .ret (.pbConcatRequest (some { A := u, B := v }), none)
      ∧ decodeGRPCConcatRequest (.pbConcatRequest (some { A := u, B := v }))
        = .ret (.concatRequest { A := u, B := v }, none))
    ∧ (decodeGRPCConcatRequest (.pbConcatRequest (some y))
        = .ret (.concatRequest { A := y.A, B := y.B }, none)
      ∧ encodeGRPCConcatRequest (.concatRequest { A := y.A, B := y.B })
        = .ret (.pbConcatRequest (some y), none)) :=
  ⟨⟨rfl, rfl⟩, ⟨rfl, rfl⟩, ⟨rfl, rfl⟩, ⟨rfl, rfl⟩⟩

/-- C6, as stated, fails for a response with a non-nil `Err`: the server-side encoder
puts only `Res` on the wire and the client-side decoder returns a response whose `Err`
is nil. -/
theorem response_round_trip_counterexample :
    encodeGRPCSumResponse convRewrap
        (.sumResponse { Res := 5, Err := some { text := "boom", grpcStatus := none } })
      = .ret (.pbSumResponse (some { Res := 5 }), status.Error codes.Internal "internal server error")
    ∧ decodeGRPCSumResponse (.pbSumResponse (some { Res := 5 }))
      = .ret (.sumResponse { Res := 5, Err := none }, none)
    ∧ Value.sumResponse { Res := 5, Err := none }
      ≠ Value.sumResponse { Res := 5, Err := some { text := "boom", grpcStatus := none } } := by
  decide

/-- C6, amended: for a domain response `y` the server-side encoder returns the wire reply
holding the `Res` of `y` together with the error `grpcEncodeError(errors.Cast(y.Err))`;
decoding that wire reply returns, with a nil error, the response with the `Res` of `y`
and a nil `Err`, which is `y` itself exactly when `y.Err` is nil; for Sum and for
Concat. -/
theorem response_round_trip (conv : GoError → Error) (y : endpoints.SumResponse)
    (z : endpoints.ConcatResponse) :
    (encodeGRPCSumResponse conv (.sumResponse y)
        = .ret (.pbSumResponse (some { Res := y.Res }), grpcEncodeError (errors.Cast conv y.Err))
      ∧ decodeGRPCSumResponse (.pbSumResponse (some { Res := y.Res }))
        = .ret (.sumResponse { Res := y.Res, Err := none }, none))
    ∧ (Value.sumResponse { Res := y.Res, Err := none } = Value.sumResponse y ↔ y.Err = none)
    ∧ (encodeGRPCConcatResponse conv (.concatResponse z)
        = .ret (.pbConcatResponse (some { Res := z.Res }),
            grpcEncodeError (errors.Cast conv z.Err))
      ∧ decodeGRPCConcatResponse (.pbConcatResponse (some { Res := z.Res }))
        = .ret (.concatResponse { Res := z.Res, Err := none }, none))
    ∧ (Value.concatResponse { Res := z.Res, Err := none } = Value.concatResponse z
        ↔ z.Err = none) := by
  refine ⟨⟨rfl, rfl⟩, ?_, ⟨rfl, rfl⟩, ?_⟩
  · cases y with
    | mk r e => simp [eq_comm]
  · cases z with
    | mk r e => simp [eq_comm]

/-- C8, as stated, fails: given a nil pointer or a value of another dynamic type the
request decoders panic; they do not return an error. -/
theorem decode_request_failure_counterexample :
    decodeGRPCSumRequest (.pbSumRequest none) = .panic .nilDereference
    ∧ decodeGRPCSumRequest (.pbConcatRequest (some { A := "a", B := "b" }))
        = .panic .typeAssertion
    ∧ decodeGRPCConcatRequest (.pbConcatRequest none) = .panic .nilDereference
    ∧ decodeGRPCConcatRequest (.pbSumRequest (some { A := 1, B := 2 }))
        = .panic .typeAssertion := by
  decide

/-- C8, amended: the request decoders never return a non-nil error. For a non-nil
pointer to the wire request of their operation they return the domain request with the
same `A` and `B` and a nil error; for every other value they panic. -/
theorem decode_request_outcomes (v : Value) :
    ((∃ x, v = .pbSumRequest (some x)
        ∧ decodeGRPCSumRequest v = .ret (.sumRequest { A := x.A, B := x.B }, none))
      ∨ ((∀ x, v ≠ .pbSumRequest (some x)) ∧ ∃ p, decodeGRPCSumRequest v = .panic p))
    ∧ ((∃ x, v = .pbConcatRequest (some x)
        ∧ decodeGRPCConcatRequest v = .ret (.concatRequest { A := x.A, B := x.B }, none))
      ∨ ((∀ x, v ≠ .pbConcatRequest (some x)) ∧ ∃ p, decodeGRPCConcatRequest v = .panic p))
    ∧ (∀ r err, decodeGRPCSumRequest v = .ret (r, err) → err = none)
    ∧ (∀ r err, decodeGRPCConcatRequest v = .ret (r, err) → err = none) := by
  refine ⟨?_, ?_, ?_, ?_⟩
  · cases v with
    | pbSumRequest p =>
      cases p with
      | none => exact Or.inr ⟨by simp, _, rfl⟩
      | some x => exact Or.inl ⟨x, rfl, rfl⟩
    | _ => exact Or.inr ⟨by simp, _, rfl⟩
  · cases v with
    | pbConcatRequest p =>
      cases p with
      | none => exact Or.inr ⟨by simp, _, rfl⟩
      | some x => exact Or.inl ⟨x, rfl, rfl⟩
    | _ => exact Or.inr ⟨by simp, _, rfl⟩
  · intro r err h
    cases v with
    | pbSumRequest p =>
      cases p with
      | none => simp [decodeGRPCSumRequest] at h
      | some x => simp [decodeGRPCSumRequest] at h; exact h.2.symm
    | _ => simp [decodeGRPCSumRequest] at h
  · intro r err h
    cases v with
    | pbConcatRequest p =>
      cases p with
      | none => simp [decodeGRPCConcatRequest] at h
      | some x => simp [decodeGRPCConcatRequest] at h; exact h.2.symm
    | _ => simp [decodeGRPCConcatRequest] at h

/-! ## The response envelope -/

/-- C9: `Response()` of a Sum or Concat response `r` is the envelope with `APIVersion`
equal to `service.Version` and `Data` equal to `r`, the same version for both operations;
`StatusCode()` is 200 and `Headers()` is empty, whatever `r` is. -/
theorem response_envelope (Version : String) (r : endpoints.SumResponse)
    (c : endpoints.ConcatResponse) :
    r.Response Version = { APIVersion := Version, Data := .sumResponse r }
    ∧ c.Response Version = { APIVersion := Version, Data := .concatResponse c }
    ∧ (r.Response Version).APIVersion = (c.Response Version).APIVersion
    ∧ r.StatusCode = 200 ∧ c.StatusCode = 200
    ∧ r.Headers = [] ∧ c.Headers = [] :=
  ⟨rfl, rfl, rfl, rfl, rfl, rfl, rfl⟩

/-! ## The server methods -/

theorem grpcEncodeError_isSome (e : Error)
    (h : Status.Code (status.FromError (some e.base)).1 ≠ codes.OK) :
    ∃ g, grpcEncodeError (some e) = some g ∧ (status.FromError (some g)).2 = true := by
  cases hg : e.base.grpcStatus with
  | some st =>
    have hc : st.code ≠ codes.OK := by
      simpa [status.FromError, hg, Status.Code] using h
    rw [grpcEncodeError_with_status e st hg, status_Error_ne_none _ _ hc]
    exact ⟨_, rfl, by simp [status.FromError]⟩
  | none =>
    rw [grpcEncodeError_without_status e hg]
    by_cases hcont : errors.Contains (some e) (some kitjwt.ErrTokenContextMissing) = true
    · rw [if_pos hcont, status_Error_ne_none _ _ (by decide)]
      exact ⟨_, rfl, by simp [status.FromError]⟩
    · rw [if_neg hcont, status_Error_ne_none _ _ (by decide)]
      exact ⟨_, rfl, by simp [status.FromError]⟩

theorem grpcServer_Sum_of_error (conv : GoError → Error) (s : grpcServer)
    (req : Option pb.SumRequest) (rp : Value) (err : GoError)
    (h : s.sum (.pbSumRequest req) = .ret (rp, some err)) :
    s.Sum conv req = .ret (none, grpcEncodeError (some (conv err))) := by
  simp [grpcServer.Sum, h, errors.Cast]

theorem grpcServer_Concat_of_error (conv : GoError → Error) (s : grpcServer)
    (req : Option pb.ConcatRequest) (rp : Value) (err : GoError)
    (h : s.concat (.pbConcatRequest req) = .ret (rp, some err)) :
    s.Concat conv req = .ret (none, grpcEncodeError (some (conv err))) := by
  simp [grpcServer.Concat, h, errors.Cast]

theorem ServeGRPC_sum_of_Err (conv : GoError → Error) (eps : endpoints.Endpoints)
    (x : pb.SumRequest) (n : Int) (err g : GoError)
    (he : eps.SumEndpoint (.sumRequest { A := x.A, B := x.B })
      = .ret (.sumResponse { Res := n, Err := some err }, none))
    (hg : grpcEncodeError (some (conv err)) = some g) :
    (MakeGRPCServer conv eps).sum (.pbSumRequest (some x)) = .ret (.nil, some g) := by
  simp [MakeGRPCServer, ServeGRPC, decodeGRPCSumRequest, he, encodeGRPCSumResponse,
    errors.Cast, hg]

theorem ServeGRPC_concat_of_Err (conv : GoError → Error) (eps : endpoints.Endpoints)
    (x : pb.ConcatRequest) (t : String) (err g : GoError)
    (he : eps.ConcatEndpoint (.concatRequest { A := x.A, B := x.B })
      = .ret (.concatResponse { Res := t, Err := some err }, none))
    (hg : grpcEncodeError (some (conv err)) = some g) :
    (MakeGRPCServer conv eps).concat (.pbConcatRequest (some x)) = .ret (.nil, some g) := by
  simp [MakeGRPCServer, ServeGRPC, decodeGRPCConcatRequest, he, encodeGRPCConcatResponse,
    errors.Cast, hg]

theorem grpcServer_Sum_reply (conv : GoError → Error) (s : grpcServer)
    (req : Option pb.SumRequest) (rep : pb.SumResponse) (err : Option GoError)
    (h : s.Sum conv req = .ret (some rep, err)) : err = none := by
  unfold grpcServer.Sum at h
  split at h
  · simp at h
  · simp at h
  · split at h
    · simp at h; exact h.2.symm
    · simp at h

theorem grpcServer_Concat_reply (conv : GoError → Error) (s : grpcServer)
    (req : Option pb.ConcatRequest) (rep : pb.ConcatResponse) (err : Option GoError)
    (h : s.Concat conv req = .ret (some rep, err)) : err = none := by
  unfold grpcServer.Concat at h
  split at h
  · simp at h
  · simp at h
  · split at h
    · simp at h; exact h.2.symm
    · simp at h

/-- C7, as stated, fails: a non-nil error that carries an explicit status with code `OK`
is translated to nil, so `grpcEncodeError` does not return a non-nil error for every
non-nil input. -/
theorem grpcEncodeError_swallows_OK_counterexample :
    grpcEncodeError (some (Error.wrap
        { text := "sum : overflow", grpcStatus := some { code := codes.OK, message := "" } } "sum"
        (Error.leaf { text := "overflow", grpcStatus := none } "overflow")))
      = none := by
  decide

/-- C7, amended: `grpcEncodeError` returns a non-nil status error for every non-nil error
for which `status.FromError` does not report a status whose code is `OK` (a nil status
reads as `OK`). For every non-nil error `err` returned by the handler, `grpcServer.Sum`
and `grpcServer.Concat` return a nil reply together with
`grpcEncodeError(errors.Cast(err))`, a non-nil status error when `errors.Cast(err)`
carries no such status. For every domain response with a non-nil `Err` produced by the
endpoint they return a nil reply and a non-nil status error when neither
`errors.Cast(Err)` nor the cast of the status error returned by the response encoder
carries such a status. In every case the reply is non-nil only when the returned error
is nil. -/
theorem server_errors_surface (conv : GoError → Error) :
    (∀ e : Error, Status.Code (status.FromError (some e.base)).1 ≠ codes.OK →
      ∃ g, grpcEncodeError (some e) = some g ∧ (status.FromError (some g)).2 = true)
    ∧ (∀ (s : grpcServer) req rp err, s.sum (.pbSumRequest req) = .ret (rp, some err) →
      s.Sum conv req = .ret (none, grpcEncodeError (errors.Cast conv (some err)))
      ∧ (Status.Code (status.FromError (some (conv err).base)).1 ≠ codes.OK →
        ∃ g, grpcEncodeError (errors.Cast conv (some err)) = some g
          ∧ (status.FromError (some g)).2 = true))
    ∧ (∀ (s : grpcServer) req rp err, s.concat (.pbConcatRequest req) = .ret (rp, some err) →
      s.Concat conv req = .ret (none, grpcEncodeError (errors.Cast conv (some err)))
      ∧ (Status.Code (status.FromError (some (conv err).base)).1 ≠ codes.OK →
        ∃ g, grpcEncodeError (errors.Cast conv (some err)) = some g
          ∧ (status.FromError (some g)).2 = true))
    ∧ (∀ (eps : endpoints.Endpoints) (x : pb.SumRequest) n err,
      eps.SumEndpoint (.sumRequest { A := x.A, B := x.B })
        = .ret (.sumResponse { Res := n, Err := some err }, none) →
      Status.Code (status.FromError (some (conv err).base)).1 ≠ codes.OK →
      (∀ g1, grpcEncodeError (errors.Cast conv (some err)) = some g1 →
        Status.Code (status.FromError (some (conv g1).base)).1 ≠ codes.OK) →
      ∃ g1 g, grpcEncodeError (errors.Cast conv (some err)) = some g1
        ∧ grpcEncodeError (errors.Cast conv (some g1)) = some g
        ∧ (MakeGRPCServer conv eps).Sum conv (some x) = .ret (none, some g)
        ∧ (status.FromError (some g)).2 = true)
    ∧ (∀ (eps : endpoints.Endpoints) (x : pb.ConcatRequest) t err,
      eps.ConcatEndpoint (.concatRequest { A := x.A, B := x.B })
        = .ret (.concatResponse { Res := t, Err := some err }, none) →
      Status.Code (status.FromError (some (conv err).base)).1 ≠ codes.OK →
      (∀ g1, grpcEncodeError (errors.Cast conv (some err)) = some g1 →
        Status.Code (status.FromError (some (conv g1).base)).1 ≠ codes.OK) →
      ∃ g1 g, grpcEncodeError (errors.Cast conv (some err)) = some g1
        ∧ grpcEncodeError (errors.Cast conv (some g1)) = some g
        ∧ (MakeGRPCServer conv eps).Concat conv (some x) = .ret (none, some g)
        ∧ (status.FromError (some g)).2 = true)
    ∧ (∀ (s : grpcServer) req rep err, s.Sum conv req = .ret (some rep, err) → err = none)
    ∧ (∀ (s : grpcServer) req rep err, s.Concat conv req = .ret (some rep, err) →
        err = none) := by
  refine ⟨fun e he => grpcEncodeError_isSome e he, ?_, ?_, ?_, ?_,
    fun s req rep err h => grpcServer_Sum_reply conv s req rep err h,
    fun s req rep err h => grpcServer_Concat_reply conv s req rep err h⟩
  · intro s req rp err h
    exact ⟨grpcServer_Sum_of_error conv s req rp err h,
      fun hne => grpcEncodeError_isSome (conv err) hne⟩
  · intro s req rp err h
    exact ⟨grpcServer_Concat_of_error conv s req rp err h,
      fun hne => grpcEncodeError_isSome (conv err) hne⟩
  · intro eps x n err he h1 h2
    obtain ⟨g1, hg1, _⟩ := grpcEncodeError_isSome (conv err) h1
    obtain ⟨g, hg, hok⟩ := grpcEncodeError_isSome (conv g1) (h2 g1 hg1)
    have hs := ServeGRPC_sum_of_Err conv eps x n err g1 he hg1
    exact ⟨g1, g, hg1, hg, by rw [grpcServer_Sum_of_error conv _ _ _ g1 hs, hg], hok⟩
  · intro eps x t err he h1 h2
    obtain ⟨g1, hg1, _⟩ := grpcEncodeError_isSome (conv err) h1
    obtain ⟨g, hg, hok⟩ := grpcEncodeError_isSome (conv g1) (h2 g1 hg1)
    have hs := ServeGRPC_concat_of_Err conv eps x t err g1 he hg1
    exact ⟨g1, g, hg1, hg, by rw [grpcServer_Concat_of_error conv _ _ _ g1 hs, hg], hok⟩

theorem grpcEncodeError_convKeep_boom :
    grpcEncodeError (errors.Cast convKeep (some { text := "boom", grpcStatus := none }))
      = some { text := "rpc error: code = Internal desc = internal server error",
               grpcStatus := some { code := codes.Internal,
                                    message := "internal server error" } } := by
  decide

theorem server_errors_surface_witness :
    Status.Code (status.FromError
        (some (convKeep { text := "boom", grpcStatus := none }).base)).1 ≠ codes.OK
    ∧ ∃ g1 g,
        grpcEncodeError (errors.Cast convKeep (some { text := "boom", grpcStatus := none }))
          = some g1
        ∧ grpcEncodeError (errors.Cast convKeep (some g1)) = some g
        ∧ (MakeGRPCServer convKeep
            { SumEndpoint := fun _ =>
                .ret (.sumResponse { Res := 0, Err := some { text := "boom", grpcStatus := none } },
                  none)
              ConcatEndpoint := fun _ => .panic .typeAssertion }).Sum convKeep
            (some { A := 2, B := 3 }) = .ret (none, some g)
        ∧ (status.FromError (some g)).2 = true :=
  ⟨by decide,
   (server_errors_surface convKeep).2.2.2.1
     { SumEndpoint := fun _ =>
         .ret (.sumResponse { Res := 0, Err := some { text := "boom", grpcStatus := none } },
           none)
       ConcatEndpoint := fun _ => .panic .typeAssertion }
     { A := 2, B := 3 } 0 { text := "boom", grpcStatus := none } rfl (by decide)
     (fun g1 h => by
       rw [grpcEncodeError_convKeep_boom] at h
       cases h
       decide)⟩

/-! ## Translating an error twice

`grpcServer.Sum` translates the error that `ServeGRPC` hands back, which the response
encoder has already translated. What the second translation gives depends on what
`errors.Cast` makes of a status error. -/

theorem retranslate_of_kept_status (conv : GoError → Error) (c : Code) (m : String)
    (g : GoError) (hc : c ≠ codes.OK) (hg : status.Error c m = some g)
    (hk : (conv g).base.grpcStatus = g.grpcStatus) :
    grpcEncodeError (errors.Cast conv (some g)) = status.Error c m := by
  rw [status_Error_ne_none c m hc] at hg
  have hst : g.grpcStatus = some { code := c, message := m } := by
    cases hg; rfl
  exact grpcEncodeError_with_status (conv g) { code := c, message := m } (hk.trans hst)

theorem retranslate_of_lost_status (conv : GoError → Error) (g : GoError)
    (hk : (conv g).base.grpcStatus = none)
    (hn : errors.Contains (some (conv g)) (some kitjwt.ErrTokenContextMissing) = false) :
    grpcEncodeError (errors.Cast conv (some g))
      = status.Error codes.Internal "internal server error" := by
  show grpcEncodeError (some (conv g)) = _
  rw [grpcEncodeError_without_status (conv g) hk, hn]; simp

theorem missing_token_end_to_end_convKeep :
    (MakeGRPCServer convKeep
        { SumEndpoint := fun _ =>
            .ret (.sumResponse { Res := 0, Err := some kitjwt.ErrTokenContextMissing }, none)
          ConcatEndpoint := fun _ => .panic .typeAssertion }).Sum convKeep
        (some { A := 2, B := 3 })
      = .ret (none, status.Error codes.Unauthenticated kitjwt.ErrTokenContextMissing.text) := by
  decide

theorem missing_token_end_to_end_convRewrap :
    (MakeGRPCServer convRewrap
        { SumEndpoint := fun _ =>
            .ret (.sumResponse { Res := 0, Err := some kitjwt.ErrTokenContextMissing }, none)
          ConcatEndpoint := fun _ => .panic .typeAssertion }).Sum convRewrap
        (some { A := 2, B := 3 })
      = .ret (none, status.Error codes.Internal "internal server error") := by
  decide

end GokitAdd
